import Mathlib

/-!
Shallow embedding of the consensus layer of `blockchain-from-scratch`
(`src/c3_consensus/*.rs`) and proofs about the behaviour of its engines.
Machine integers (`u64`) are embedded as `Nat`; the structural hash reduces
modulo `2 ^ 64`. Fallible paths (a Rust `unwrap` that can panic, a `while`
loop without a bound) are embedded as `Option` results and fuel-indexed
recursion respectively.
-/

/-- The generic block header of the crate (`Header<Digest>` in the consensus
module): parent hash, height, state root, extrinsics root and the
engine-specific consensus digest. -/
structure Header (D : Type) where
  parent : Nat
  height : Nat
  state_root : Nat
  extrinsics_root : Nat
  consensus_digest : D
deriving DecidableEq

/-- Modelled from the spec: `ConsensusAuthority`, the fixed permissioned
identity type declared in the consensus module root (not under `src/`).
The exhaustive three-arm `match` in `PoaRoundRobinByHeight::seal`
(`p3_poa.rs`, lines 126-130) shows the enum has exactly the variants
`Alice`, `Bob` and `Charlie`. -/
inductive ConsensusAuthority where
  | Alice
  | Bob
  | Charlie
deriving DecidableEq

/-- Modelled from the spec: `crate::hash`, the deterministic structural
64-bit hash defined in the crate root (not under `src/`). The spec fixes
only that it is a pure function of every header field; we use a concrete
linear mixing of the fields, reduced modulo `2 ^ 64`, as a stand-in.
`dv` maps the digest to its numeric contribution. -/
def hashHeader {D : Type} (dv : D → Nat) (h : Header D) : Nat :=
  (h.parent * 3 + h.height * 5 + h.state_root * 7 +
    h.extrinsics_root * 11 + dv h.consensus_digest * 13 + 1) % (2 ^ 64)

/-- Modelled from the spec: the `Consensus` trait of the consensus module
(its `mod.rs` is not under `src/`). An engine is its `validate` predicate
plus its `seal` function; the remaining trait items (`human_name`,
`create_default_instance`, the default `verify_sub_chain`) are not needed
by the claims about the combinators. -/
structure ConsensusEngine (D : Type) where
  validate : D → Header D → Bool
  sealFn : D → Header Unit → Option (Header D)

/-- The proof-of-work engine of `p1_pow.rs`: only a difficulty threshold. -/
structure PoW where
  threshold : Nat

/-- `PoW::validate` (`p1_pow.rs` lines 33-35): the hash of the full header
must be strictly below the threshold; the parent digest is ignored. -/
def PoW.validate (e : PoW) (_pd : Nat) (h : Header Nat) : Bool :=
  decide (hashHeader id h < e.threshold)

/-- The `while hash(&h) > self.threshold { h.consensus_digest += 1 }` loop of
`PoW::seal` (`p1_pow.rs` lines 48-50), indexed by fuel. `none` means the
loop is still running after `fuel` iterations; the source loop has no bound
and no failure exit of its own, so every value it actually returns is
`some`. -/
def PoW.sealLoop (e : PoW) (h : Header Nat) : Nat → Option (Header Nat)
  | 0 => none
  | n + 1 =>
    if hashHeader id h > e.threshold then
      PoW.sealLoop e { h with consensus_digest := h.consensus_digest + 1 } n
    else
      some h

/-- `PoW::seal` (`p1_pow.rs` lines 39-53): start from the fixed nonce `10`
and run the rehash loop. The parent digest is ignored. -/
def PoW.seal (e : PoW) (_pd : Nat) (ph : Header Unit) (fuel : Nat) :
    Option (Header Nat) :=
  PoW.sealLoop e
    ⟨ph.parent, ph.height, ph.state_root, ph.extrinsics_root, 10⟩ fuel

/-- The all-zero partial header used as a concrete test input. -/
def phZero : Header Unit := ⟨0, 0, 0, 0, ()⟩

/-- The first candidate `PoW::seal` builds from `phZero`: nonce `10`. -/
def hNonce10 : Header Nat := ⟨0, 0, 0, 0, 10⟩

/-- C1. The mining loop of `PoW::seal` exits as soon as
`hash(h) > threshold` fails, i.e. already when `hash(h) = threshold`,
while `PoW::validate` demands `hash(h) < threshold`. At threshold
`hashHeader id hNonce10 = 131` the very first candidate is returned by
`seal`, its hash equals the threshold, and `validate` rejects it — so a
`seal` call can return a header whose hash is not strictly below the
threshold and which the same engine refuses to validate. -/
theorem pow_seal_boundary_hash_eq_threshold :
    PoW.seal ⟨131⟩ 0 phZero 1 = some hNonce10 ∧
      hashHeader id hNonce10 = (131 : Nat) ∧
      PoW.validate ⟨131⟩ 0 hNonce10 = false := by
  refine ⟨rfl, rfl, rfl⟩

set_option maxRecDepth 100000 in
/-- C2. `PoW::seal` is not a bounded search: its loop has no iteration cap,
no deadline and no absent-value return. With threshold `0` and the all-zero
partial header the loop is still running after 1000 iterations (the
fuel-indexed embedding returns `none`, meaning the source loop has not
terminated), and the source has no path that reports failure. -/
theorem pow_seal_threshold_zero_still_running :
    PoW.seal ⟨0⟩ 0 phZero 1000 = none := by
  rfl

/-- The any-member proof-of-authority engine of `p3_poa.rs` (lines 16-18):
an ordered roster of authorities. -/
structure SimplePoa where
  authorities : List ConsensusAuthority

/-- `SimplePoa::validate` (`p3_poa.rs` lines 25-41): both the header digest
and the parent digest must be one of the literals `Charlie`, `Bob`,
`Alice`; the `authorities` roster of the engine is never consulted. -/
def SimplePoa.validate (_e : SimplePoa) (pd : ConsensusAuthority)
    (h : Header ConsensusAuthority) : Bool :=
  (h.consensus_digest == ConsensusAuthority.Charlie ||
    h.consensus_digest == ConsensusAuthority.Bob ||
    h.consensus_digest == ConsensusAuthority.Alice) &&
  (pd == ConsensusAuthority.Charlie ||
    pd == ConsensusAuthority.Bob ||
    pd == ConsensusAuthority.Alice)

/-- `SimplePoa::seal` (`p3_poa.rs` lines 43-71): take the last roster
member; if it equals the parent digest switch to the first member;
an empty roster yields `None`. -/
def SimplePoa.seal (e : SimplePoa) (pd : ConsensusAuthority)
    (ph : Header Unit) : Option (Header ConsensusAuthority) :=
  match e.authorities with
  | [] => none
  | a0 :: rest =>
    let la := (a0 :: rest).getLastD a0
    let a := if la == pd then a0 else la
    some ⟨ph.parent, ph.height, ph.state_root, ph.extrinsics_root, a⟩

/-- The round-robin-by-height engine of `p3_poa.rs` (lines 83-85). -/
structure PoaRoundRobinByHeight where
  authorities : List ConsensusAuthority

/-- `PoaRoundRobinByHeight::validate` (`p3_poa.rs` lines 99-109): the
expected signer and expected parent signer are hard-coded from
`height % 3`; the roster is never consulted. -/
def PoaRoundRobinByHeight.validate (_e : PoaRoundRobinByHeight)
    (pd : ConsensusAuthority) (h : Header ConsensusAuthority) : Bool :=
  if h.height % 3 = 1 then
    h.consensus_digest == ConsensusAuthority.Bob &&
      pd == ConsensusAuthority.Alice
  else if h.height % 3 = 0 then
    h.consensus_digest == ConsensusAuthority.Alice &&
      pd == ConsensusAuthority.Charlie
  else
    h.consensus_digest == ConsensusAuthority.Charlie &&
      pd == ConsensusAuthority.Bob

/-- `PoaRoundRobinByHeight::seal` (`p3_poa.rs` lines 111-148): pick the
signer from `height % 3` (the `_ => None` arm of the source is dead for a
`u64` height), check the parent digest against the signer preceding it,
and fail with `None` only when the parent does not match. The roster is
never consulted. -/
def PoaRoundRobinByHeight.seal (_e : PoaRoundRobinByHeight)
    (pd : ConsensusAuthority) (ph : Header Unit) :
    Option (Header ConsensusAuthority) :=
  let a? : Option ConsensusAuthority :=
    if ph.height % 3 = 0 then some ConsensusAuthority.Alice
    else if ph.height % 3 = 1 then some ConsensusAuthority.Bob
    else if ph.height % 3 = 2 then some ConsensusAuthority.Charlie
    else none
  match a? with
  | none => none
  | some a =>
    let parent_is_correct :=
      match a with
      | ConsensusAuthority.Alice => pd == ConsensusAuthority.Charlie
      | ConsensusAuthority.Bob => pd == ConsensusAuthority.Alice
      | ConsensusAuthority.Charlie => pd == ConsensusAuthority.Bob
    if parent_is_correct then
      some ⟨ph.parent, ph.height, ph.state_root, ph.extrinsics_root, a⟩
    else
      none

/-- The slot digest of `p3_poa.rs` (lines 172-176): slot number plus the
signing authority. -/
structure SlotDigest where
  slot : Nat
  signature : ConsensusAuthority
deriving DecidableEq

/-- The round-robin-by-slot engine of `p3_poa.rs` (lines 165-167). -/
structure PoaRoundRobinBySlot where
  authorities : List ConsensusAuthority

/-- `PoaRoundRobinBySlot::validate` (`p3_poa.rs` lines 181-191): the first
branch keys the expected signer on `slot % 3`, the remaining two branches
key it on `height % 3`; every branch also demands
`parent.slot < header.slot`. The roster is never consulted. -/
def PoaRoundRobinBySlot.validate (_e : PoaRoundRobinBySlot)
    (pd : SlotDigest) (h : Header SlotDigest) : Bool :=
  if h.consensus_digest.slot % 3 = 1 then
    h.consensus_digest.signature == ConsensusAuthority.Bob &&
      decide (pd.slot < h.consensus_digest.slot)
  else if h.height % 3 = 0 then
    h.consensus_digest.signature == ConsensusAuthority.Alice &&
      decide (pd.slot < h.consensus_digest.slot)
  else
    h.consensus_digest.signature == ConsensusAuthority.Charlie &&
      decide (pd.slot < h.consensus_digest.slot)

/-- `PoaRoundRobinBySlot::seal` (`p3_poa.rs` lines 193-220): advance the
slot by exactly one, pick the signer from `(parent.slot + 1) % 3` (the
`_ => None` arm is dead for a `u64` slot) and always return a header.
The roster is never consulted. -/
def PoaRoundRobinBySlot.seal (_e : PoaRoundRobinBySlot)
    (pd : SlotDigest) (ph : Header Unit) : Option (Header SlotDigest) :=
  let a? : Option ConsensusAuthority :=
    if (pd.slot + 1) % 3 = 0 then some ConsensusAuthority.Alice
    else if (pd.slot + 1) % 3 = 1 then some ConsensusAuthority.Bob
    else if (pd.slot + 1) % 3 = 2 then some ConsensusAuthority.Charlie
    else none
  match a? with
  | none => none
  | some a =>
    some ⟨ph.parent, ph.height, ph.state_root, ph.extrinsics_root,
      ⟨pd.slot + 1, a⟩⟩

/-- Modelled from the spec for comparison with `SimplePoa.validate`: the
claimed any-member rule, accepting iff the header digest and the parent
digest are both members of the engine's own roster. -/
def SimplePoa.validateRosterSpec (e : SimplePoa) (pd : ConsensusAuthority)
    (h : Header ConsensusAuthority) : Bool :=
  e.authorities.contains h.consensus_digest && e.authorities.contains pd

/-- Modelled from the spec for comparison with
`PoaRoundRobinBySlot.validate`: the claimed rule, whose expected signer is
the roster member at index `slot mod roster size` in every branch,
together with strict slot monotonicity. -/
def PoaRoundRobinBySlot.validateSlotSpec (e : PoaRoundRobinBySlot)
    (pd : SlotDigest) (h : Header SlotDigest) : Bool :=
  match e.authorities[h.consensus_digest.slot % e.authorities.length]? with
  | some a =>
    h.consensus_digest.signature == a &&
      decide (pd.slot < h.consensus_digest.slot)
  | none => false

/-- C6 counterexample. With roster `[Alice]`, parent digest `Bob` and a
header signed by `Bob`, `SimplePoa::validate` returns `true` even though
`Bob` is not a roster member — the claimed roster-membership rule returns
`false` on the same input. -/
theorem simple_poa_validate_ignores_roster_cex :
    SimplePoa.validate ⟨[ConsensusAuthority.Alice]⟩ ConsensusAuthority.Bob
        ⟨0, 1, 0, 0, ConsensusAuthority.Bob⟩ = true ∧
      SimplePoa.validateRosterSpec ⟨[ConsensusAuthority.Alice]⟩
        ConsensusAuthority.Bob ⟨0, 1, 0, 0, ConsensusAuthority.Bob⟩ =
        false := by
  refine ⟨rfl, rfl⟩

/-- C6 amended. `SimplePoa::validate` checks both digests against the
fixed literals `Charlie`, `Bob`, `Alice` rather than against the engine's
roster, and since `ConsensusAuthority` has exactly those three variants it
returns `true` for every roster, parent digest and header. -/
theorem simple_poa_validate_always_true (e : SimplePoa)
    (pd : ConsensusAuthority) (h : Header ConsensusAuthority) :
    SimplePoa.validate e pd h = true := by
  rcases h with ⟨p, ht, sr, er, d⟩
  cases d <;> cases pd <;> rfl

/-- C7. `PoaRoundRobinBySlot::validate` keys two of its three branches on
the header's height instead of its slot. With the default-size roster
`[Alice, Bob, Charlie]`, a header of height `0` whose digest is
`{slot 5, signature Charlie}` and a parent of slot `0`: the slot-based
rule of the claim expects the roster member at index `5 mod 3 = 2`
(`Charlie`) and accepts, but the code lands in the `height % 3 == 0`
branch, demands `Alice`, and rejects. -/
theorem byslot_validate_height_branch_divergence :
    PoaRoundRobinBySlot.validate
        ⟨[ConsensusAuthority.Alice, ConsensusAuthority.Bob,
          ConsensusAuthority.Charlie]⟩
        ⟨0, ConsensusAuthority.Alice⟩
        ⟨0, 0, 0, 0, ⟨5, ConsensusAuthority.Charlie⟩⟩ = false ∧
      PoaRoundRobinBySlot.validateSlotSpec
        ⟨[ConsensusAuthority.Alice, ConsensusAuthority.Bob,
          ConsensusAuthority.Charlie]⟩
        ⟨0, ConsensusAuthority.Alice⟩
        ⟨0, 0, 0, 0, ⟨5, ConsensusAuthority.Charlie⟩⟩ = true := by
  refine ⟨rfl, rfl⟩

/-- C8 counterexample. `PoaRoundRobinBySlot::seal` never reads its roster:
constructed with an empty roster it still returns a sealed header, where
the claim demands the absent value for every input. -/
theorem byslot_seal_empty_roster_cex :
    PoaRoundRobinBySlot.seal ⟨[]⟩ ⟨0, ConsensusAuthority.Alice⟩ phZero =
      some ⟨0, 0, 0, 0, ⟨1, ConsensusAuthority.Bob⟩⟩ := by
  rfl

/-- C8 amended. Only `SimplePoa::seal` fails cleanly on an empty roster:
it returns `None` for every parent digest and partial header. The two
round-robin engines never consult their roster: with an empty roster
`PoaRoundRobinBySlot::seal` still returns a header for every input, and
`PoaRoundRobinByHeight::seal` still returns a header for every input whose
parent digest matches the expected predecessor of the height's hard-coded
signer (`Charlie` before `Alice` at heights `0 mod 3`, `Alice` before
`Bob` at `1 mod 3`, `Bob` before `Charlie` at `2 mod 3`). -/
theorem poa_seal_empty_roster :
    (∀ (pd : ConsensusAuthority) (ph : Header Unit),
        SimplePoa.seal ⟨[]⟩ pd ph = none) ∧
      (∀ (pd : SlotDigest) (ph : Header Unit),
        ∃ H, PoaRoundRobinBySlot.seal ⟨[]⟩ pd ph = some H) ∧
      (∀ (pd : ConsensusAuthority) (ph : Header Unit),
        (ph.height % 3 = 0 ∧ pd = ConsensusAuthority.Charlie) ∨
          (ph.height % 3 = 1 ∧ pd = ConsensusAuthority.Alice) ∨
          (ph.height % 3 = 2 ∧ pd = ConsensusAuthority.Bob) →
        ∃ H, PoaRoundRobinByHeight.seal ⟨[]⟩ pd ph = some H) := by
  refine ⟨fun pd ph => rfl, fun pd ph => ?_, fun pd ph hcond => ?_⟩
  · rw [← Option.isSome_iff_exists]
    unfold PoaRoundRobinBySlot.seal
    rcases hm : (pd.slot + 1) % 3 with _ | _ | _ | k
    · simp [hm]
    · simp [hm]
    · simp [hm]
    · exact absurd hm (by omega)
  · rw [← Option.isSome_iff_exists]
    unfold PoaRoundRobinByHeight.seal
    rcases hcond with ⟨h0, rfl⟩ | ⟨h1, rfl⟩ | ⟨h2, rfl⟩
    · simp [h0]
    · simp [h1]
    · simp [h2]

/-- Witness for the C8 theorem: at height 0 (`phZero`) the expected
predecessor of the hard-coded signer `Alice` is `Charlie`, and the
round-robin-by-height engine with an empty roster does seal. -/
theorem poa_seal_empty_roster_witness :
    (phZero.height % 3 = 0 ∧
        ConsensusAuthority.Charlie = ConsensusAuthority.Charlie) ∧
      ∃ H, PoaRoundRobinByHeight.seal ⟨[]⟩ ConsensusAuthority.Charlie
        phZero = some H :=
  ⟨⟨rfl, rfl⟩, poa_seal_empty_roster.2.2 ConsensusAuthority.Charlie phZero
    (Or.inl ⟨rfl, rfl⟩)⟩

/-- `EvenOnly::validate` (`p4_even_only.rs` lines 27-31): the inner
engine's verdict conjoined with evenness of the state root. The wrapped
engine is passed as an explicit `ConsensusEngine` value, mirroring the
generic `EvenOnly<Inner: Consensus>` of the source. -/
def EvenOnly.validate {D : Type} (inner : ConsensusEngine D) (pd : D)
    (h : Header D) : Bool :=
  inner.validate pd h && h.state_root % 2 == 0

/-- The candidate adjustment of `EvenOnly::seal` (`p4_even_only.rs` line
42): an odd candidate state root is incremented by one. -/
def EvenOnly.adjust (ph : Header Unit) : Header Unit :=
  ⟨ph.parent, ph.height,
    if ph.state_root % 2 = 0 then ph.state_root else ph.state_root + 1,
    ph.extrinsics_root, ()⟩

/-- `EvenOnly::seal` (`p4_even_only.rs` lines 33-48): adjust the candidate
state root to be even, then delegate to the inner engine. -/
def EvenOnly.seal {D : Type} (inner : ConsensusEngine D) (pd : D)
    (ph : Header Unit) : Option (Header D) :=
  inner.sealFn pd (EvenOnly.adjust ph)

/-- An adversarial but well-typed inner engine: its `seal` ignores the
candidate and returns a header with state root `1`. A Rust implementation
of the `Consensus` trait may do exactly this, since the trait places no
constraint on the returned header. -/
def oddRootEngine : ConsensusEngine Nat where
  validate := fun _ _ => true
  sealFn := fun _ ph =>
    some ⟨ph.parent, ph.height, 1, ph.extrinsics_root, 0⟩

/-- C10 counterexample. `EvenOnly::seal` only adjusts the candidate it
hands to the inner engine; it does not enforce evenness of what the inner
engine returns. Wrapping `oddRootEngine`, `seal` returns a header whose
state root is the odd number `1`. -/
theorem even_only_seal_odd_inner_cex :
    EvenOnly.seal oddRootEngine 0 phZero = some ⟨0, 0, 1, 0, 0⟩ ∧
      (1 : Nat) % 2 = 1 := by
  refine ⟨rfl, rfl⟩

/-- C10 amended. For every inner engine — preserving or not —
`EvenOnly::validate` rejects any header with an odd state root regardless
of the inner verdict, and `EvenOnly::seal` hands the inner engine a
candidate with an even state root (an odd candidate is incremented by
one). The returned header's state root is even whenever the inner engine's
`seal` additionally preserves the candidate's state root, as every engine
of this repository does. -/
theorem even_only_validate_and_seal {D : Type}
    (inner : ConsensusEngine D) :
    (∀ (pd : D) (h : Header D), h.state_root % 2 = 1 →
      EvenOnly.validate inner pd h = false) ∧
    (∀ ph : Header Unit, (EvenOnly.adjust ph).state_root % 2 = 0) ∧
    (∀ (pd : D) (ph : Header Unit) (H : Header D),
      (∀ (pd2 : D) (ph2 : Header Unit) (H2 : Header D),
        inner.sealFn pd2 ph2 = some H2 → H2.state_root = ph2.state_root) →
      EvenOnly.seal inner pd ph = some H → H.state_root % 2 = 0) := by
  have hadj : ∀ ph : Header Unit, (EvenOnly.adjust ph).state_root % 2 = 0 := by
    intro ph
    unfold EvenOnly.adjust
    by_cases hp : ph.state_root % 2 = 0
    · simp [hp]
    · simp only [hp, if_false]
      omega
  refine ⟨?_, hadj, ?_⟩
  · intro pd h hodd
    unfold EvenOnly.validate
    have : (h.state_root % 2 == 0) = false := by
      simp [hodd]
    simp [this]
  · intro pd ph H hpres hseal
    have := hpres pd (EvenOnly.adjust ph) H hseal
    rw [this]
    exact hadj ph

/-- The `SimplePoa` engine with the default roster, packaged as a
`ConsensusEngine` value. -/
def simplePoaDefaultEngine : ConsensusEngine ConsensusAuthority where
  validate := SimplePoa.validate
    ⟨[ConsensusAuthority.Alice, ConsensusAuthority.Bob,
      ConsensusAuthority.Charlie]⟩
  sealFn := SimplePoa.seal
    ⟨[ConsensusAuthority.Alice, ConsensusAuthority.Bob,
      ConsensusAuthority.Charlie]⟩

/-- Witness for the C10 theorem: instantiated with the default `SimplePoa`
engine (whose `seal` preserves the candidate's state root), sealing the
all-zero partial header from parent `Alice` yields an even state root, and
a header with state root `1` is rejected. -/
theorem even_only_validate_and_seal_witness :
    (⟨0, 0, 0, 0, ConsensusAuthority.Charlie⟩ :
        Header ConsensusAuthority).state_root % 2 = 0 ∧
      EvenOnly.validate simplePoaDefaultEngine ConsensusAuthority.Alice
        ⟨0, 0, 1, 0, ConsensusAuthority.Bob⟩ = false := by
  have hpres : ∀ (pd : ConsensusAuthority) (ph : Header Unit)
      (H : Header ConsensusAuthority),
      simplePoaDefaultEngine.sealFn pd ph = some H →
        H.state_root = ph.state_root := by
    intro pd ph H hs
    unfold simplePoaDefaultEngine SimplePoa.seal at hs
    simp only at hs
    injection hs with h2
    subst h2
    rfl
  refine ⟨?_, ?_⟩
  · exact (even_only_validate_and_seal simplePoaDefaultEngine).2.2
      ConsensusAuthority.Alice phZero
      ⟨0, 0, 0, 0, ConsensusAuthority.Charlie⟩ hpres rfl
  · exact (even_only_validate_and_seal simplePoaDefaultEngine).1
      ConsensusAuthority.Alice ⟨0, 0, 1, 0, ConsensusAuthority.Bob⟩ rfl

/-- Field-by-field header copy with digest conversion, as written inline in
`Forked::validate` and `Forked::seal` (`p6_forking.rs` lines 41-47, 52-58,
73-79, 92-98). -/
def mapHeader {D E : Type} (f : D → E) (h : Header D) : Header E :=
  ⟨h.parent, h.height, h.state_root, h.extrinsics_root,
    f h.consensus_digest⟩

/-- The forking combinator of `p6_forking.rs` (lines 15-21): a fork height,
the engine in force up to it, the engine in force above it, and the four
digest conversions that the source expresses as `Into`/`From` bounds on
the unifying digest type `D`. -/
structure Forked (D BD AD : Type) where
  fork_height : Nat
  inner_c_before : ConsensusEngine BD
  inner_c_after : ConsensusEngine AD
  toBefore : D → BD
  ofBefore : BD → D
  toAfter : D → AD
  ofAfter : AD → D

/-- `Forked::validate` (`p6_forking.rs` lines 37-61): project the parent
digest and the header to the digest type of the engine in force at the
header's height, and return that engine's verdict. -/
def Forked.validate {D BD AD : Type} (e : Forked D BD AD) (pd : D)
    (h : Header D) : Bool :=
  if h.height > e.fork_height then
    e.inner_c_after.validate (e.toAfter pd) (mapHeader e.toAfter h)
  else
    e.inner_c_before.validate (e.toBefore pd) (mapHeader e.toBefore h)

/-- `Forked::seal` (`p6_forking.rs` lines 63-106): delegate to the engine
in force at `partial_header.height` and convert the digest of the returned
header back to `D`. -/
def Forked.seal {D BD AD : Type} (e : Forked D BD AD) (pd : D)
    (ph : Header Unit) : Option (Header D) :=
  if ph.height > e.fork_height then
    (e.inner_c_after.sealFn (e.toAfter pd) ph).map (mapHeader e.ofAfter)
  else
    (e.inner_c_before.sealFn (e.toBefore pd) ph).map (mapHeader e.ofBefore)

/-- `Forked::verify_sub_chain` (`p6_forking.rs` lines 117-138): empty
chain valid, single header invalid, a two-header chain checks only
`validate(parent_digest, chain[1])`, longer chains additionally recurse on
the slice starting at index 1 with `chain[1]`'s digest as parent. -/
def Forked.verify_sub_chain {D BD AD : Type} (e : Forked D BD AD) (pd : D)
    (chain : List (Header D)) : Bool :=
  match chain with
  | [] => true
  | [_] => false
  | [_, h1] => Forked.validate e pd h1
  | _ :: h1 :: h2 :: rest =>
    Forked.validate e pd h1 &&
      Forked.verify_sub_chain e h1.consensus_digest (h1 :: h2 :: rest)

/-- Left-to-right pairwise validation of a run of headers: the first
element is checked against `p`, each following element against the digest
of the element before it. -/
def chainedCheck {D : Type} (val : D → Header D → Bool) :
    D → List (Header D) → Bool
  | _, [] => true
  | p, [h] => val p h
  | p, h :: h2 :: rest =>
    val p h && chainedCheck val h.consensus_digest (h2 :: rest)

/-- Modelled from the claim wording for C3: empty chain valid, single
header invalid, otherwise element 0 is validated against the supplied
parent digest and every later element against the digest of its
predecessor. -/
def Forked.verifySubChainClaim {D BD AD : Type} (e : Forked D BD AD)
    (pd : D) (chain : List (Header D)) : Bool :=
  match chain with
  | [] => true
  | [_] => false
  | _ => chainedCheck (Forked.validate e) pd chain

/-- What `Forked::verify_sub_chain` actually computes: element 0 is never
validated; element 1 is checked against the supplied parent digest and the
walk continues from there. -/
def Forked.verifySubChainAmended {D BD AD : Type} (e : Forked D BD AD)
    (pd : D) (chain : List (Header D)) : Bool :=
  match chain with
  | [] => true
  | [_] => false
  | _ :: rest => chainedCheck (Forked.validate e) pd rest

/-- On a nonempty tail, `Forked::verify_sub_chain` of `x :: xs` drops `x`
and runs the pairwise walk over `xs` starting from the supplied parent
digest. -/
theorem forked_vsc_cons {D BD AD : Type} (e : Forked D BD AD) :
    ∀ (xs : List (Header D)) (x : Header D) (p : D), xs ≠ [] →
      Forked.verify_sub_chain e p (x :: xs) =
        chainedCheck (Forked.validate e) p xs := by
  intro xs
  induction xs with
  | nil =>
    intro x p hne
    exact absurd rfl hne
  | cons h t ih =>
    intro x p _
    cases t with
    | nil =>
      rfl
    | cons h2 r =>
      have hrec := ih h h.consensus_digest (by simp)
      simp only [Forked.verify_sub_chain, chainedCheck]
      rw [← hrec]

/-- C3 amended. For every forked engine, parent digest and header run:
`verify_sub_chain` accepts the empty run, rejects a single header, and on
longer runs returns the conjunction of `validate` applied to element 1
against the supplied parent digest and to each later element against its
predecessor's digest — element 0 is never validated. -/
theorem forked_verify_sub_chain_characterization {D BD AD : Type}
    (e : Forked D BD AD) (pd : D) (chain : List (Header D)) :
    Forked.verify_sub_chain e pd chain =
      Forked.verifySubChainAmended e pd chain := by
  cases chain with
  | nil => rfl
  | cons x xs =>
    cases xs with
    | nil => rfl
    | cons h t =>
      rw [forked_vsc_cons e (h :: t) x pd (by simp)]
      rfl

/-- A `PoW` engine wrapped as a `ConsensusEngine` value, running its
mining loop with the given fuel. -/
def powEngine (e : PoW) (fuel : Nat) : ConsensusEngine Nat where
  validate := e.validate
  sealFn := fun pd ph => e.seal pd ph fuel

/-- A concrete forked engine in the shape of `change_difficulty`
(`p6_forking.rs` lines 166-178): both sides are `PoW` with threshold 200,
the unifying digest is the engines' own `u64` digest and all four
conversions are the identity, fork height 10. -/
def forkedPowPow : Forked Nat Nat Nat where
  fork_height := 10
  inner_c_before := powEngine ⟨200⟩ 5
  inner_c_after := powEngine ⟨200⟩ 5
  toBefore := id
  ofBefore := id
  toAfter := id
  ofAfter := id

/-- A header of height 0 whose modelled hash `1301` is above threshold
200, i.e. invalid for `forkedPowPow`. -/
def cexH0 : Header Nat := ⟨0, 0, 0, 0, 100⟩

/-- A header of height 1 whose modelled hash `136` is below threshold 200,
i.e. valid for `forkedPowPow`. -/
def cexH1 : Header Nat := ⟨0, 1, 0, 0, 10⟩

/-- C3 counterexample. On the two-header run `[cexH0, cexH1]`,
`Forked::verify_sub_chain` returns `true` although element 0 fails
`validate` against the supplied parent digest: the claimed rule, which
validates element 0 first, returns `false` on the same input. -/
theorem forked_vsc_ignores_first_element_cex :
    Forked.verify_sub_chain forkedPowPow 0 [cexH0, cexH1] = true ∧
      Forked.verifySubChainClaim forkedPowPow 0 [cexH0, cexH1] = false := by
  refine ⟨rfl, rfl⟩

/-- C9. `Forked::validate` returns Before's verdict on the converted
digests whenever the header's height is at most the fork height and
After's verdict whenever it exceeds it; `Forked::seal` branches the same
way on the partial header's height, converting the sealed digest back. -/
theorem forked_branches_on_height {D BD AD : Type} (e : Forked D BD AD)
    (pd : D) (h : Header D) (ph : Header Unit) :
    (h.height ≤ e.fork_height →
      Forked.validate e pd h =
        e.inner_c_before.validate (e.toBefore pd) (mapHeader e.toBefore h)) ∧
    (e.fork_height < h.height →
      Forked.validate e pd h =
        e.inner_c_after.validate (e.toAfter pd) (mapHeader e.toAfter h)) ∧
    (ph.height ≤ e.fork_height →
      Forked.seal e pd ph =
        (e.inner_c_before.sealFn (e.toBefore pd) ph).map
          (mapHeader e.ofBefore)) ∧
    (e.fork_height < ph.height →
      Forked.seal e pd ph =
        (e.inner_c_after.sealFn (e.toAfter pd) ph).map
          (mapHeader e.ofAfter)) := by
  unfold Forked.validate Forked.seal
  refine ⟨fun hle => ?_, fun hgt => ?_, fun hle => ?_, fun hgt => ?_⟩
  · rw [if_neg (by omega)]
  · rw [if_pos (by omega)]
  · rw [if_neg (by omega)]
  · rw [if_pos (by omega)]

/-- A height-11 header, above the fork height of `forkedPowPow`. -/
def cexH11 : Header Nat := ⟨0, 11, 0, 0, 10⟩

/-- A height-11 partial header. -/
def phHigh11 : Header Unit := ⟨0, 11, 0, 0, ()⟩

/-- Witness for the C9 theorem at the concrete engine `forkedPowPow`:
height 1 is handled by the Before engine, height 11 by the After
engine, for both `validate` and `seal`. -/
theorem forked_branches_on_height_witness :
    (Forked.validate forkedPowPow 0 cexH1 =
      forkedPowPow.inner_c_before.validate (forkedPowPow.toBefore 0)
        (mapHeader forkedPowPow.toBefore cexH1)) ∧
    (Forked.validate forkedPowPow 0 cexH11 =
      forkedPowPow.inner_c_after.validate (forkedPowPow.toAfter 0)
        (mapHeader forkedPowPow.toAfter cexH11)) ∧
    (Forked.seal forkedPowPow 0 phZero =
      (forkedPowPow.inner_c_before.sealFn (forkedPowPow.toBefore 0)
        phZero).map (mapHeader forkedPowPow.ofBefore)) ∧
    (Forked.seal forkedPowPow 0 phHigh11 =
      (forkedPowPow.inner_c_after.sealFn (forkedPowPow.toAfter 0)
        phHigh11).map (mapHeader forkedPowPow.ofAfter)) := by
  refine ⟨?_, ?_, ?_, ?_⟩
  · exact (forked_branches_on_height forkedPowPow 0 cexH1 phZero).1
      (by decide)
  · exact (forked_branches_on_height forkedPowPow 0 cexH11 phZero).2.1
      (by decide)
  · exact (forked_branches_on_height forkedPowPow 0 cexH1 phZero).2.2.1
      (by decide)
  · exact (forked_branches_on_height forkedPowPow 0 cexH1 phHigh11).2.2.2
      (by decide)

/-- The two-slot digest of the alternating engine (`p5_interleave.rs`
lines 16-20): an optional authority slot and an optional PoW nonce slot. -/
structure AlternatingPowPoaDigest where
  authority : Option ConsensusAuthority
  digest_for_threshold : Option Nat
deriving DecidableEq

/-- The alternating engine of `p5_interleave.rs` (lines 11-14): a `PoW`
inner engine for odd heights and a `SimplePoa` inner engine for even
heights. -/
structure AlternatingPowPoa where
  inner_pow : PoW
  inner_poa : SimplePoa

/-- `AlternatingPowPoa::validate` (`p5_interleave.rs` lines 25-66). The
result is an `Option Bool`: `some b` is the returned verdict, `none` is
the panic raised by `header.consensus_digest...unwrap()` when the active
slot of the header's own digest is absent while the parent's slot is
present. An absent slot in the parent digest returns `some false`. -/
def AlternatingPowPoa.validate (e : AlternatingPowPoa)
    (pd : AlternatingPowPoaDigest) (h : Header AlternatingPowPoaDigest) :
    Option Bool :=
  if h.height % 2 = 1 then
    match pd.digest_for_threshold with
    | some _ =>
      match h.consensus_digest.digest_for_threshold with
      | some d =>
        some (e.inner_pow.validate 0
          ⟨h.parent, h.height, h.state_root, h.extrinsics_root, d⟩)
      | none => none
    | none => some false
  else
    match pd.authority with
    | some pa =>
      match h.consensus_digest.authority with
      | some a =>
        some (e.inner_poa.validate pa
          ⟨h.parent, h.height, h.state_root, h.extrinsics_root, a⟩)
      | none => none
    | none => some false

/-- `AlternatingPowPoa::seal` (`p5_interleave.rs` lines 69-138). Odd
heights extract the parent's PoW slot, run the inner PoW seal (here with
the given fuel) and store its nonce with `authority: None`; even heights
extract the parent's authority slot, run the inner PoA seal and store its
authority with `digest_for_threshold: None`; an absent active slot in the
parent digest yields `None`. -/
def AlternatingPowPoa.seal (e : AlternatingPowPoa) (fuel : Nat)
    (pd : AlternatingPowPoaDigest) (ph : Header Unit) :
    Option (Header AlternatingPowPoaDigest) :=
  if ph.height % 2 = 1 then
    match pd.digest_for_threshold with
    | some pv =>
      match e.inner_pow.seal pv ph fuel with
      | some pw =>
        some ⟨pw.parent, pw.height, pw.state_root, pw.extrinsics_root,
          ⟨none, some pw.consensus_digest⟩⟩
      | none => none
    | none => none
  else
    match pd.authority with
    | some pa =>
      match e.inner_poa.seal pa ph with
      | some pa2 =>
        some ⟨pa2.parent, pa2.height, pa2.state_root, pa2.extrinsics_root,
          ⟨some pa2.consensus_digest, none⟩⟩
      | none => none
    | none => none

/-- The alternating engine built from the default inner instances:
threshold `u64::MAX / 100` and roster `[Alice, Bob, Charlie]`
(`p5_interleave.rs` lines 140-145). -/
def alternatingDefault : AlternatingPowPoa where
  inner_pow := ⟨(2 ^ 64 - 1) / 100⟩
  inner_poa := ⟨[ConsensusAuthority.Alice, ConsensusAuthority.Bob,
    ConsensusAuthority.Charlie]⟩

/-- A parent digest with both slots populated: authority `Alice`, PoW
nonce `7`. -/
def apdBoth : AlternatingPowPoaDigest := ⟨some ConsensusAuthority.Alice,
  some 7⟩

/-- A height-2 partial header. -/
def phEven2 : Header Unit := ⟨0, 2, 0, 0, ()⟩

/-- C4 counterexample. Sealing at even height 2 from a parent whose PoW
slot is populated with `7`: the returned digest's PoW slot is `none`, not
the parent's `some 7` — the inactive slot is cleared, not copied. -/
theorem alternating_seal_clears_inactive_slot_cex :
    AlternatingPowPoa.seal alternatingDefault 0 apdBoth phEven2 =
        some ⟨0, 2, 0, 0, ⟨some ConsensusAuthority.Charlie, none⟩⟩ ∧
      apdBoth.digest_for_threshold = some 7 := by
  refine ⟨rfl, rfl⟩

/-- C4 amended. Whenever `AlternatingPowPoa::seal` returns a header: at
odd heights the PoW slot of the returned digest is populated and the
authority slot is absent; at even heights the authority slot is populated
and the PoW slot is absent. The inactive engine's slot is always set to
the absent value, never inherited from the parent digest. -/
theorem alternating_seal_slot_parity (e : AlternatingPowPoa) (fuel : Nat)
    (pd : AlternatingPowPoaDigest) (ph : Header Unit)
    (H : Header AlternatingPowPoaDigest)
    (hseal : AlternatingPowPoa.seal e fuel pd ph = some H) :
    (ph.height % 2 = 1 →
      (∃ v, H.consensus_digest.digest_for_threshold = some v) ∧
        H.consensus_digest.authority = none) ∧
    (ph.height % 2 = 0 →
      (∃ a, H.consensus_digest.authority = some a) ∧
        H.consensus_digest.digest_for_threshold = none) := by
  unfold AlternatingPowPoa.seal at hseal
  by_cases hodd : ph.height % 2 = 1
  · rw [if_pos hodd] at hseal
    refine ⟨fun _ => ?_, fun heven => absurd heven (by omega)⟩
    split at hseal
    · split at hseal
      · injection hseal with h2
        subst h2
        exact ⟨⟨_, rfl⟩, rfl⟩
      · exact absurd hseal (by simp)
    · exact absurd hseal (by simp)
  · rw [if_neg hodd] at hseal
    refine ⟨fun h1 => absurd h1 hodd, fun _ => ?_⟩
    split at hseal
    · split at hseal
      · injection hseal with h2
        subst h2
        exact ⟨⟨_, rfl⟩, rfl⟩
      · exact absurd hseal (by simp)
    · exact absurd hseal (by simp)

/-- Witness for the C4 theorem: the concrete even-height seal of the
counterexample input has a populated authority slot and an absent PoW
slot. -/
theorem alternating_seal_slot_parity_witness :
    (∃ a, (⟨some ConsensusAuthority.Charlie, none⟩ :
        AlternatingPowPoaDigest).authority = some a) ∧
      (⟨some ConsensusAuthority.Charlie, none⟩ :
        AlternatingPowPoaDigest).digest_for_threshold = none := by
  exact (alternating_seal_slot_parity alternatingDefault 0 apdBoth phEven2
    ⟨0, 2, 0, 0, ⟨some ConsensusAuthority.Charlie, none⟩⟩ rfl).2 rfl

/-- A parent digest with only the PoW slot populated. -/
def apdPowOnly : AlternatingPowPoaDigest := ⟨none, some 0⟩

/-- An odd-height header whose own PoW slot is absent. -/
def hOddMissingPow : Header AlternatingPowPoaDigest :=
  ⟨0, 1, 0, 0, ⟨some ConsensusAuthority.Alice, none⟩⟩

/-- C5. `AlternatingPowPoa::validate` fails closed only on the parent
digest: when the parent's active slot is present but the header's own
active slot is absent, the source calls `.unwrap()` on `None` and panics
(the embedding returns `none`) instead of returning `false`. At height 1
with `apdPowOnly` as parent and `hOddMissingPow` as header the code
panics, while an absent parent slot on the same shape of input does
return `false`. -/
theorem alternating_validate_unwrap_panic :
    AlternatingPowPoa.validate alternatingDefault apdPowOnly
        hOddMissingPow = none ∧
      AlternatingPowPoa.validate alternatingDefault ⟨some
          ConsensusAuthority.Alice, none⟩ hOddMissingPow = some false := by
  refine ⟨rfl, rfl⟩
